import Mathlib

/-!
Verification of the `myspace` dev-container orchestrator (`src/unnamed/part_000`,
with `src/myspace.ts` an earlier iteration of the same program).

The program is a Node CLI that drives the external `devcontainer` tool as a
subprocess, persists a small JSON state file inside the container, and
relays TCP connections. This file shallowly embeds, from the source:

* the data model (`Project`, `Persistent`);
* `JSON.stringify`/`JSON.parse` on the fragment of JSON the program
  exercises (flat objects with string keys and unsigned-integer or string
  values, plus top-level numbers and strings; decimal integer literals,
  string literals without escape sequences, JSON whitespace);
* the line-comment stripping regex `replace` in `setUpContainer`;
* the `Cli` subprocess layer (`waitForChild`, `Cli.up`, standard-input
  piping, `Cli.readConfiguration`), with the environment-provided parts —
  child-process outcomes, captured standard output, file contents — made
  explicit parameters;
* the persistent-state store (`writePersistent`, `readPersistent`), the
  creation workflow (`setUpContainer`) and serving workflow (`runWebUi`);
* `randomAppPort` over an exact rational in place of the IEEE double
  produced by `Math.random()`;
* `escapeShell` together with a POSIX shell field-splitting/unquoting
  function for the fragment the escaped output exercises (blank separation,
  single quotes, backslash escapes; double-quote processing and expansion
  are not modelled because every double quote, dollar sign and backquote in
  an `escapeShell` output sits inside a single-quoted region);
* the forwarding-proxy relay pair of `runWebUi`, including the JavaScript
  semantics that decide its error handling: a property access `x.destroy`
  yields the unbound prototype method, and a Node `EventEmitter` invokes a
  listener with `this` bound to the emitter.

Theorems at the end settle the claims; helper lemmas sit in between.
-/

namespace Myspace

/-- Uniquely identifies a project folder (source: `type Project`). -/
structure Project where
  workspaceFolder : List Char
deriving DecidableEq

/-- The state persisted in the container (source: `type Persistent`). -/
structure Persistent where
  appPort : Nat
deriving DecidableEq

/-- Source: `const persistPath = "~/.myspace"`. -/
def persistPath : List Char := "~/.myspace".data

/-- The single JSON key the program persists. -/
def appPortKey : List Char := "appPort".data

/-- Prepend a character onto the first of a list of character lists
(used both by the line splitter and the shell-field proofs). -/
def consHead (c : Char) : List (List Char) → List (List Char)
  | [] => [[c]]
  | w :: ws => (c :: w) :: ws

/-! ## Decimal rendering of numbers

JavaScript serializes the integers this program produces (ports, the
literal `1`) as plain decimal strings; `natToChars` is that rendering for
naturals. It is written with structural fuel so that it reduces inside the
kernel. -/

/-- The decimal digit character for `d < 10`. -/
def digitChar : Nat → Char
  | 0 => '0' | 1 => '1' | 2 => '2' | 3 => '3' | 4 => '4'
  | 5 => '5' | 6 => '6' | 7 => '7' | 8 => '8' | 9 => '9'
  | _ => '*'

/-- Numeric value of a digit character. -/
def digitVal (c : Char) : Nat := c.toNat - 48

/-- Decimal digits of `n`, most significant first; `fuel` bounds the digit
count (any `fuel ≥ n` is enough). -/
def natToCharsAux : Nat → Nat → List Char
  | 0, _ => []
  | fuel + 1, n => if n = 0 then [] else natToCharsAux fuel (n / 10) ++ [digitChar (n % 10)]

/-- Decimal rendering of a natural number, as `JSON.stringify` and template
interpolation render the nonnegative integers of this program. -/
def natToChars (n : Nat) : List Char := if n = 0 then ['0'] else natToCharsAux (n + 1) n

/-! ## The JSON fragment

`JSON.parse` and `JSON.stringify`, restricted to the shapes this program
reads and writes: flat objects with string keys whose values are unsigned
integers or strings, plus top-level numbers and strings. Inputs outside
the fragment (nested objects, arrays, booleans, `null`, signed or
fractional numbers, escape sequences in strings) are rejected by the
parsing function; no value the program itself serializes falls outside
the fragment. -/

/-- JSON values of the modelled fragment. -/
inductive Json where
  | num (n : Nat)
  | str (s : List Char)
  | obj (members : List (List Char × Json))

/-- JSON whitespace (space, linefeed, tab, carriage return). -/
def isWsChar (c : Char) : Bool := c == ' ' || c == '\n' || c == '\t' || c == '\r'

/-- Drop leading JSON whitespace. -/
def skipWs (cs : List Char) : List Char := cs.dropWhile isWsChar

/-- Consume a string-literal body after its opening quote, up to and past
the closing quote.  Escape sequences are outside the modelled fragment;
every character before the closing quote is taken literally. -/
def parseStringBody : List Char → Option (List Char × List Char)
  | [] => none
  | c :: rest =>
      if c = '"' then some ([], rest)
      else (parseStringBody rest).map fun sr => (c :: sr.1, sr.2)

/-- Consume a decimal integer literal. -/
def parseNumber (cs : List Char) : Option (Nat × List Char) :=
  let ds := cs.takeWhile Char.isDigit
  if ds = [] then none
  else some (ds.foldl (fun a c => a * 10 + digitVal c) 0, cs.dropWhile Char.isDigit)

/-- Consume one member value (a string or an unsigned integer). -/
def parseValue (cs : List Char) : Option (Json × List Char) :=
  match skipWs cs with
  | [] => none
  | c :: rest =>
      if c = '"' then (parseStringBody rest).map fun sr => (Json.str sr.1, sr.2)
      else
        match parseNumber (c :: rest) with
        | none => none
        | some (n, r) => some (Json.num n, r)

/-- Consume a nonempty member list followed by the closing brace; `fuel`
bounds the member count. -/
def parseMembers : Nat → List Char → Option (List (List Char × Json) × List Char)
  | 0, _ => none
  | fuel + 1, cs =>
    match skipWs cs with
    | [] => none
    | c :: rest =>
      if c = '"' then
        match parseStringBody rest with
        | none => none
        | some (key, r1) =>
          match skipWs r1 with
          | [] => none
          | c2 :: r2 =>
            if c2 = ':' then
              match parseValue r2 with
              | none => none
              | some (v, r3) =>
                match skipWs r3 with
                | [] => none
                | c3 :: r4 =>
                  if c3 = ',' then
                    match parseMembers fuel r4 with
                    | none => none
                    | some (ms, r) => some ((key, v) :: ms, r)
                  else if c3 = '\x7d' then some ([(key, v)], r4)
                  else none
            else none
      else none

/-- `JSON.parse` on the modelled fragment: `some` exactly when the text is
a document of the fragment, `none` where the real parser would throw a
`SyntaxError`. -/
def parseJsonChars (cs : List Char) : Option Json :=
  match skipWs cs with
  | [] => none
  | c :: rest =>
    if c = '\x7b' then
      match skipWs rest with
      | [] => none
      | c2 :: rest2 =>
        if c2 = '\x7d' then
          if skipWs rest2 = [] then some (Json.obj []) else none
        else
          match parseMembers (rest.length + 1) rest with
          | none => none
          | some (ms, r) => if skipWs r = [] then some (Json.obj ms) else none
    else if c = '"' then
      match parseStringBody rest with
      | none => none
      | some (s, r) => if skipWs r = [] then some (Json.str s) else none
    else
      match parseNumber (c :: rest) with
      | none => none
      | some (n, r) => if skipWs r = [] then some (Json.num n) else none

/-- `JSON.stringify({ appPort: n })`, the exact byte sequence
`writePersistent` pipes into the container-side file. -/
def stringifyPersistent (d : Persistent) : List Char :=
  '\x7b' :: '"' :: (appPortKey ++ '"' :: ':' :: (natToChars d.appPort ++ ['\x7d']))

/-! ## Line-comment stripping

Source (`setUpContainer`):
`JSON.parse(configText.replace(/\/\/.*$/gm, ""))` — on every line, the
match starts at the first `//` and runs to the end of the line (`.` does
not cross the newline), so the replacement deletes from the first `//`
through the end of each line. -/

/-- Split a text into its lines at linefeeds (the separators are dropped;
`joinNl` puts them back). -/
def splitOnNl : List Char → List (List Char)
  | [] => [[]]
  | c :: cs => if c = '\n' then [] :: splitOnNl cs else consHead c (splitOnNl cs)

/-- Rejoin lines with linefeeds. -/
def joinNl : List (List Char) → List Char
  | [] => []
  | [l] => l
  | l :: ls => l ++ '\n' :: joinNl ls

/-- Delete from the first `//` (inclusive) to the end of a single line. -/
def dropLineComment : List Char → List Char
  | [] => []
  | '/' :: '/' :: _ => []
  | c :: cs => c :: dropLineComment cs

/-- The effect of `configText.replace(/\/\/.*$/gm, "")`. -/
def stripComments (cs : List Char) : List Char :=
  joinNl ((splitOnNl cs).map dropLineComment)

/-! ## The child-process layer

`waitForChild` awaits a promise that resolves on the `close` event —
whose payload is the exit status — and rejects on the `error` event,
which Node emits when the process could not be spawned.  A `ChildOutcome`
is the environment-determined fate of one spawned child. -/

/-- What became of a spawned child process. -/
inductive ChildOutcome where
  | spawnError
  | closed (exitCode : Nat)
deriving DecidableEq

/-- Errors a `Cli.up`-style invocation can surface. -/
inductive UpError where
  | spawnFailed
  | stdinWriteFailed
deriving DecidableEq

/-- Source:
`await new Promise((resolve, reject) => { child.on("close", resolve); child.on("error", reject); })`.
The `close` listener resolves with the exit status, whatever it is; only
the `error` (spawn-failure) event rejects. -/
def waitForChild : ChildOutcome → Except UpError Nat
  | .spawnError => .error .spawnFailed
  | .closed code => .ok code

/-- The standard-input pipe of a spawned child: the chunks written so far
and whether the writer has closed it (`stdin.end()`). -/
structure Pipe where
  chunks : List (List Char)
  closed : Bool
deriving DecidableEq

/-- A fresh pipe: nothing written, not closed. -/
def pipeStart : Pipe := ⟨[], false⟩

/-- Run a straight-line `stdin.write …; stdin.write …; stdin.end()`
sequence, as `Cli.up`, `writePersistent` and the settings save in
`setUpContainer` all do.  `writeFails i` says whether the i-th write
throws; a throw abandons the rest of the sequence — including the
`end()` — exactly as an exception does in the source, which wraps none
of these sequences in `try`/`finally`.  Returns the pipe state and
whether an exception escaped. -/
def runWrites (writeFails : Nat → Bool) : Nat → List (List Char) → Pipe → Pipe × Bool
  | _, [], p => ({ p with closed := true }, false)
  | i, c :: cs, p =>
      if writeFails i then (p, true)
      else runWrites writeFails (i + 1) cs { p with chunks := p.chunks ++ [c] }

/-- The whole stdin script for a given chunk list. -/
def stdinScript (writeFails : Nat → Bool) (chunks : List (List Char)) : Pipe × Bool :=
  runWrites writeFails 0 chunks pipeStart

/-- Chunks `Cli.up` writes: the serialized override configuration, then a
newline (source: `child.stdin.write(JSON.stringify(overrideConfig));
child.stdin.write("\n"); child.stdin.end()`).  The serialized text is a
parameter; nothing below depends on its bytes. -/
def upChunks (overrideText : List Char) : List (List Char) := [overrideText, ['\n']]

/-- The single chunk `writePersistent` writes (`JSON.stringify(data)`). -/
def persistChunks (data : Persistent) : List (List Char) := [stringifyPersistent data]

/-- The single chunk the settings save in `setUpContainer` writes
(`JSON.stringify(settings)`, serialized text as a parameter). -/
def settingsChunks (settingsText : List Char) : List (List Char) := [settingsText]

/-- Source: `Cli.up` — spawn the intermediary shell, write the override
configuration and a newline to its standard input, close it, then
`await waitForChild(child)`.  A write exception rejects the whole
operation before `waitForChild` is reached; otherwise the result is
whatever `waitForChild` produces for the child outcome. -/
def upResult (overrideText : List Char) (writeFails : Nat → Bool)
    (outcome : ChildOutcome) : Except UpError Nat :=
  let s := stdinScript writeFails (upChunks overrideText)
  if s.2 then .error .stdinWriteFailed else waitForChild outcome

/-- The pipe state `Cli.up` leaves behind. -/
def upPipe (overrideText : List Char) (writeFails : Nat → Bool) : Pipe :=
  (stdinScript writeFails (upChunks overrideText)).1

/-- Errors `Cli.readConfiguration` can surface: the deliberate throw on
empty output, or the `JSON.parse` exception. -/
inductive CliError where
  | configurationUnavailable
  | parseFailed
deriving DecidableEq

/-- Source: `Cli.readConfiguration` — capture the standard output of the
`read-configuration` subcommand, throw
`"unable to read dev container configuration; does this folder have one?"`
when it is empty (`if (!text)` — the guard runs before any parsing), and
otherwise hand the text to `JSON.parse`.  The captured output is the
`stdout` parameter; because `waitForChild` resolves on `close` whatever
the exit status, the text is examined even when the subprocess failed. -/
def readConfiguration (_project : Project) (stdout : List Char) : Except CliError Json :=
  if stdout = [] then .error .configurationUnavailable
  else
    match parseJsonChars stdout with
    | some j => .ok j
    | none => .error .parseFailed

/-! ## The persistent state store

The container offers no storage API other than running commands, so the
store is a per-project file, transported by `Cli.exec` with piped
standard streams: `writePersistent` pipes the serialized state into
`cat >~/.myspace/persist.json`; `readPersistent` captures the output of
`cat ~/.myspace/persist.json`.  A `Store` maps each project (each
project has one container) to the contents of that file, `none` when it
does not exist. -/

/-- Container-side persist files, one per project. -/
def Store := Project → Option (List Char)

/-- Failure of `readPersistent`: the `JSON.parse` throw, reached both for
unparsable contents and for a missing file (the spec calls it
`StateNotFoundError`; in the source it is the `SyntaxError` escaping from
`JSON.parse`). -/
inductive StateError where
  | stateNotFound
deriving DecidableEq

/-- Source: `writePersistent` — pipe `JSON.stringify(data)` into the
persist file of this project.  The file afterwards holds exactly the
piped bytes. -/
def writePersistent (project : Project) (data : Persistent) (store : Store) : Store :=
  fun q => if q = project then some (stringifyPersistent data) else store q

/-- Source: `readPersistent` — capture the output of `cat` on the persist
file and `JSON.parse` it.  When the file is missing, `cat` writes nothing
to standard output and exits non-zero; `waitForChild` resolves anyway, so
the captured text is empty and `JSON.parse` throws. -/
def readPersistent (project : Project) (store : Store) : Except StateError Json :=
  let text := (store project).getD []
  match parseJsonChars text with
  | some j => .ok j
  | none => .error .stateNotFound

/-- First member of an object with the given key, if any. -/
def lookupMember (key : List Char) : List (List Char × Json) → Option Json
  | [] => none
  | (k, v) :: ms => if k = key then some v else lookupMember key ms

/-- The destructuring `const { appPort } = parsed` of `runWebUi`:
`some` the numeric `appPort` member, `none` (JavaScript `undefined`)
when the parsed value has no such member or is not an object. -/
def getAppPort (j : Json) : Option Nat :=
  match j with
  | .obj ms =>
    match lookupMember appPortKey ms with
    | some (.num n) => some n
    | _ => none
  | _ => none

/-- Replace the value at the first occurrence of `key`, keeping its
position, or append the member — the effect of the object spread
`{ ...configJson, appPort }` on parsed-JSON objects (whose keys are
unique). -/
def setMembers (key : List Char) (v : Json) : List (List Char × Json) → List (List Char × Json)
  | [] => [(key, v)]
  | (k, w) :: ms => if k = key then (k, v) :: ms else (k, w) :: setMembers key v ms

/-- The spread `{ ...configJson, appPort }`.  Spreading a non-object
contributes no members (exact for numbers; strings would contribute
index members, which no exercised input produces). -/
def setField (j : Json) (key : List Char) (v : Json) : Json :=
  match j with
  | .obj ms => .obj (setMembers key v ms)
  | _ => .obj [(key, v)]

/-! ## The creation and serving workflows -/

/-- Failures that abort `setUpContainer`: the two `readConfiguration`
throws, or `JSON.parse` throwing on the comment-stripped configuration
file. -/
inductive SetUpError where
  | configurationUnavailable
  | parseFailed
  | badConfigJson
deriving DecidableEq

/-- What a successful `setUpContainer` leaves behind: the override
configuration handed to `Cli.up`, and the store after `writePersistent`. -/
structure SetUpRun where
  override : Json
  store : Store

/-- Source: `setUpContainer` — read the tool configuration (captured
subprocess output `rcOut`), pick the app port (`appPort`, produced by
`randomAppPort`), read the raw configuration file (contents
`configText`), strip line comments, `JSON.parse` the result, run
`Cli.up` with `{ ...configJson, appPort }`, create the storage directory,
and `writePersistent` the chosen port.  The download and settings-save
steps touch neither the persist file nor anything a claim mentions, and
every child resolves through `waitForChild` whatever its exit status
(spawn failures are not modelled here), so the only aborts are the two
parse-related throws. -/
def setUpContainer (project : Project) (rcOut : List Char) (configText : List Char)
    (appPort : Nat) (store : Store) : Except SetUpError SetUpRun :=
  match readConfiguration project rcOut with
  | .error .configurationUnavailable => .error .configurationUnavailable
  | .error .parseFailed => .error .parseFailed
  | .ok _cliConfig =>
    match parseJsonChars (stripComments configText) with
    | none => .error .badConfigJson
    | some configJson =>
      let override := setField configJson appPortKey (Json.num appPort)
      let store2 := writePersistent project ⟨appPort⟩ store
      .ok ⟨override, store2⟩

/-- The `sh -c` command string `runWebUi` hands to `Cli.exec`
(source: backtick template with two spaces after `serve-web`). -/
def serveWebCommand (portText : List Char) : List Char :=
  persistPath ++ "/code serve-web  --host :: --port ".data ++ portText
    ++ " --without-connection-token".data

/-- What a successful `runWebUi` did: the destructured `appPort`, the
in-container command it executed, and the forward port its proxy
listener was started on (when one was requested). -/
structure WebUiRun where
  servedPort : Option Nat
  command : List Char
  proxyStarted : Option Nat
deriving DecidableEq

/-- Source: `runWebUi` — read the persisted state, destructure
`appPort`, optionally start the forwarding proxy on `forwardPort`, and
execute `~/.myspace/code serve-web … --port ${appPort} …` in the
container.  Its two child commands (`cat` and `serve-web`) only read the
persist file, so the store comes back unchanged; a failed
`readPersistent` aborts the workflow.  An absent `appPort` member would
interpolate as the text `undefined`. -/
def runWebUi (project : Project) (forwardPort : Option Nat) (store : Store) :
    Except StateError WebUiRun × Store :=
  match readPersistent project store with
  | .error e => (.error e, store)
  | .ok j =>
    let port := getAppPort j
    let portText := match port with | some n => natToChars n | none => "undefined".data
    (.ok { servedPort := port, command := serveWebCommand portText, proxyStarted := forwardPort },
      store)

/-! ## The port allocator

Source: `randomAppPort` —
`Math.round((last - first) * Math.random()) + first` with
`[first, last] = [49152, 65535]`.  `Math.random()` draws from `[0, 1)`;
the draw is modelled as an exact rational (the IEEE-double rounding of
the product only moves it within the same bounds), and `Math.round` —
round half towards positive infinity — is Mathlib `round`. -/

/-- The allocator as a function of the random draw. -/
def randomAppPort (r : ℚ) : ℤ := round ((65535 - 49152 : ℚ) * r) + 49152

/-! ## Shell quoting

Source: `escapeShell` wraps every argument in single quotes, replacing
each embedded single quote by the four-character sequence
quote-backslash-quote-quote, and joins with single blanks;
`Cli.spawnInShell` pastes the result after `"cat | "` into `sh -c`.
`shellFields` is POSIX field splitting plus quote removal on the
fragment such output exercises: blank-separated words, single-quoted
segments (inside which every character is literal), and backslash
escapes outside quotes.  Double-quote processing, parameter expansion
and command substitution are not modelled: in an `escapeShell` output
every character other than the quoting apparatus itself sits inside a
single-quoted segment, where a POSIX shell treats it literally. -/

/-- The single-quote character. -/
def squoteChar : Char := Char.ofNat 39

/-- The backslash character. -/
def bslashChar : Char := '\\'

/-- Tokenizer modes: between words, inside a word, inside single quotes. -/
inductive ShellMode where
  | out
  | word
  | quoted

/-- POSIX field splitting and quote removal (fragment as above): `none`
on an unterminated quote or trailing backslash, otherwise the list of
words. In `word`/`quoted` mode the head of the result is the remainder
of the word currently being read. -/
def shellFields : ShellMode → List Char → Option (List (List Char))
  | .out, [] => some []
  | .out, c :: cs =>
      if c = ' ' then shellFields .out cs
      else if c = squoteChar then shellFields .quoted cs
      else if c = bslashChar then
        match cs with
        | [] => none
        | d :: cs2 => (shellFields .word cs2).map (consHead d)
      else (shellFields .word cs).map (consHead c)
  | .word, [] => some [[]]
  | .word, c :: cs =>
      if c = ' ' then (shellFields .out cs).map (fun ws => [] :: ws)
      else if c = squoteChar then shellFields .quoted cs
      else if c = bslashChar then
        match cs with
        | [] => none
        | d :: cs2 => (shellFields .word cs2).map (consHead d)
      else (shellFields .word cs).map (consHead c)
  | .quoted, [] => none
  | .quoted, c :: cs =>
      if c = squoteChar then shellFields .word cs
      else (shellFields .quoted cs).map (consHead c)

/-- The replacement for one embedded single quote
(quote-backslash-quote-quote). -/
def escQuoteSeq : List Char := [squoteChar, bslashChar, squoteChar, squoteChar]

/-- `a.replaceAll("'", "'\\''")`. -/
def escBody : List Char → List Char
  | [] => []
  | c :: cs => (if c = squoteChar then escQuoteSeq else [c]) ++ escBody cs

/-- One escaped argument: the replaced body wrapped in single quotes. -/
def escapeArg (a : List Char) : List Char := squoteChar :: (escBody a ++ [squoteChar])

/-- Source: `escapeShell` — escape every argument and `join(" ")`. -/
def escapeShell : List (List Char) → List Char
  | [] => []
  | [a] => escapeArg a
  | a :: rest => escapeArg a ++ ' ' :: escapeShell rest

/-! ## The forwarding proxy

Source (`runWebUi`):
```
net.createServer(from => {
    const to = net.createConnection({ port: appPort });
    from.on("error", to.destroy);
    from.pipe(to);
    to.on("error", from.destroy);
    to.pipe(from);
}).listen(forwardPort);
```
Two pieces of JavaScript semantics decide what the error handlers do:
a property access `x.destroy` evaluates to the *unbound* prototype
method `net.Socket.prototype.destroy` — the object `x` is not captured
— and the Node `EventEmitter` invokes every listener with `this` bound
to the emitter.  The registered listener therefore destroys whatever
socket the event fired on, not the counterpart.  Sockets are labelled by
numbers; a relay pair is the accepted socket (`src`, the parameter
`from`) and the outbound one (`dst`, the local `to`). -/

/-- One relay pair: the accepted connection and its outbound counterpart. -/
structure RelayPair where
  src : Nat
  dst : Nat
deriving DecidableEq

/-- Proxy state: the active relay pairs, which sockets have been
destroyed, and whether the listener is accepting. -/
structure ProxyState where
  pairs : List RelayPair
  destroyed : List Nat
  listenerUp : Bool

/-- `net.Socket.prototype.destroy` applied to a receiver. -/
def destroySocket (s : Nat) (st : ProxyState) : ProxyState :=
  { st with destroyed := s :: st.destroyed }

/-- The value of the expression `x.destroy`: the unbound prototype
method, a function of the receiver it will be invoked on. -/
def destroyMethod : Nat → ProxyState → ProxyState := destroySocket

/-- The error listeners registered on socket `s` by the relay setup:
`from.on("error", to.destroy)` puts the unbound method on `from`, and
`to.on("error", from.destroy)` puts the unbound method on `to` — in both
registrations the expression evaluates to `destroyMethod` and the other
socket of the pair is not captured. -/
def errorHandlersOn (s : Nat) (pairs : List RelayPair) : List (Nat → ProxyState → ProxyState) :=
  pairs.foldr
    (fun p acc =>
      (if p.src = s then [destroyMethod] else [])
        ++ (if p.dst = s then [destroyMethod] else []) ++ acc)
    []

/-- An `error` event on socket `s`: the `EventEmitter` runs each listener
registered on `s` with `this` bound to `s`, the emitter.  Nothing here
touches the listener. -/
def emitError (s : Nat) (st : ProxyState) : ProxyState :=
  (errorHandlersOn s st.pairs).foldl (fun acc h => h s acc) st

/-! ## Auxiliary definitions for proofs and concrete instances -/

/-- Prepend a character list onto the first word of a word list. -/
def prependHead (a : List Char) (ws : List (List Char)) : List (List Char) :=
  a.foldr consHead ws

/-- The text of an empty JSON object. -/
def emptyObjText : List Char := "\x7b\x7d".data

/-- A raw configuration text that contains an end-of-line comment and a
`//` inside a string literal: the stripping regex also fires on the
latter. -/
def c6BadText : List Char := "\x7b\"a\": \"http://x\"\x7d // note".data

/-- The comment-stripping example from the specification. -/
def c6ExampleText : List Char := "\x7b\"a\": 1 // note\n\x7d".data

/-- A concrete project for the configuration-parsing instances. -/
def c6Project : Project := ⟨"/home/dev/proj".data⟩

/-- A concrete project for the port-plumbing instances. -/
def c2Project : Project := ⟨"/home/dev/proj2".data⟩

/-- The store a concrete creation workflow leaves behind. -/
def c2Store : Store := writePersistent c2Project ⟨50000⟩ (fun _ => none)

/-- The full result of that concrete creation workflow. -/
def c2Run : SetUpRun := ⟨setField (Json.obj []) appPortKey (Json.num 50000), c2Store⟩

/-- A store with no persist file for any project. -/
def c8StoreNone : Store := fun _ => none

/-- A store whose persist file holds a serialized state. -/
def c8StoreGood : Store := fun _ => some (stringifyPersistent ⟨7⟩)

/-! ## Lemmas about decimal rendering -/

theorem digitChar_spec {d : Nat} (h : d < 10) :
    (digitChar d).isDigit = true ∧ isWsChar (digitChar d) = false ∧ digitChar d ≠ '"' := by
  interval_cases d <;> exact ⟨rfl, rfl, by decide⟩

theorem digitVal_digitChar {d : Nat} (h : d < 10) : digitVal (digitChar d) = d := by
  interval_cases d <;> rfl

theorem mem_natToCharsAux {c : Char} :
    ∀ {fuel n : Nat}, c ∈ natToCharsAux fuel n → ∃ d, d < 10 ∧ c = digitChar d := by
  intro fuel
  induction fuel with
  | zero => intro n h; simp [natToCharsAux] at h
  | succ fuel ih =>
    intro n h
    by_cases hn : n = 0
    · simp [natToCharsAux, hn] at h
    · simp only [natToCharsAux, if_neg hn, List.mem_append, List.mem_singleton] at h
      rcases h with h | h
      · exact ih h
      · exact ⟨n % 10, Nat.mod_lt _ (by norm_num), h⟩

theorem mem_natToChars {c : Char} {n : Nat} (h : c ∈ natToChars n) :
    ∃ d, d < 10 ∧ c = digitChar d := by
  by_cases hn : n = 0
  · simp [natToChars, hn] at h
    exact ⟨0, by norm_num, h⟩
  · simp only [natToChars, if_neg hn] at h
    exact mem_natToCharsAux h

theorem natToChars_ne_nil (n : Nat) : natToChars n ≠ [] := by
  by_cases hn : n = 0
  · simp [natToChars, hn]
  · simp only [natToChars, if_neg hn, natToCharsAux]
    simp [if_neg hn]

theorem foldl_natToCharsAux :
    ∀ (fuel n acc : Nat), n ≤ fuel →
      (natToCharsAux fuel n).foldl (fun a c => a * 10 + digitVal c) acc
        = acc * 10 ^ (natToCharsAux fuel n).length + n := by
  intro fuel
  induction fuel with
  | zero => intro n acc h; interval_cases n; simp [natToCharsAux]
  | succ fuel ih =>
    intro n acc h
    by_cases hn : n = 0
    · simp [natToCharsAux, hn]
    · have hdiv : n / 10 ≤ fuel := by
        have : n / 10 < n := Nat.div_lt_self (Nat.pos_of_ne_zero hn) (by norm_num)
        omega
      simp only [natToCharsAux, if_neg hn, List.foldl_append, List.foldl_cons, List.foldl_nil,
        List.length_append, List.length_cons, List.length_nil]
      rw [ih _ acc hdiv, digitVal_digitChar (Nat.mod_lt _ (by norm_num))]
      rw [pow_succ]
      have hdm := Nat.div_add_mod n 10
      set k := acc * 10 ^ (natToCharsAux fuel (n / 10)).length with hk
      ring_nf
      omega

theorem foldl_natToChars (n : Nat) :
    (natToChars n).foldl (fun a c => a * 10 + digitVal c) 0 = n := by
  by_cases hn : n = 0
  · simp [natToChars, hn, digitVal]
  · simp only [natToChars, if_neg hn]
    rw [foldl_natToCharsAux _ _ _ (Nat.le_succ n)]
    simp

/-! ## Lemmas about the JSON fragment -/

theorem takeWhile_append_of_all {p : Char → Bool} :
    ∀ {l r : List Char}, (∀ c ∈ l, p c = true) →
      (l ++ r).takeWhile p = l ++ r.takeWhile p := by
  intro l
  induction l with
  | nil => intro r _; rfl
  | cons c cs ih =>
    intro r h
    have hc : p c = true := h c (List.mem_cons_self _ _)
    simp only [List.cons_append, List.takeWhile_cons, hc, if_true]
    rw [ih fun d hd => h d (List.mem_cons_of_mem _ hd)]

theorem dropWhile_append_of_all {p : Char → Bool} :
    ∀ {l r : List Char}, (∀ c ∈ l, p c = true) →
      (l ++ r).dropWhile p = r.dropWhile p := by
  intro l
  induction l with
  | nil => intro r _; rfl
  | cons c cs ih =>
    intro r h
    have hc : p c = true := h c (List.mem_cons_self _ _)
    simp only [List.cons_append, List.dropWhile_cons, hc, if_true]
    exact ih fun d hd => h d (List.mem_cons_of_mem _ hd)

theorem natToChars_all_digit {n : Nat} : ∀ c ∈ natToChars n, c.isDigit = true := by
  intro c hc
  obtain ⟨d, hd, rfl⟩ := mem_natToChars hc
  exact (digitChar_spec hd).1

theorem parseNumber_natToChars (n : Nat) (r : List Char) :
    parseNumber (natToChars n ++ '\x7d' :: r) = some (n, '\x7d' :: r) := by
  unfold parseNumber
  rw [takeWhile_append_of_all natToChars_all_digit,
    dropWhile_append_of_all natToChars_all_digit]
  have h1 : ('\x7d' :: r).takeWhile Char.isDigit = [] := by
    simp [List.takeWhile_cons]
  have h2 : ('\x7d' :: r).dropWhile Char.isDigit = '\x7d' :: r := by
    simp [List.dropWhile_cons]
  rw [h1, h2, List.append_nil]
  simp [natToChars_ne_nil n, foldl_natToChars]

theorem skipWs_cons_of_not_ws {c : Char} (cs : List Char) (h : isWsChar c = false) :
    skipWs (c :: cs) = c :: cs := by
  simp [skipWs, List.dropWhile_cons, h]

theorem skipWs_natToChars_append (n : Nat) (r : List Char) :
    skipWs (natToChars n ++ r) = natToChars n ++ r := by
  obtain ⟨c, cs, hdecomp⟩ := List.exists_cons_of_ne_nil (natToChars_ne_nil n)
  have hc : c ∈ natToChars n := by rw [hdecomp]; exact List.mem_cons_self _ _
  obtain ⟨d, hd, rfl⟩ := mem_natToChars hc
  rw [hdecomp, List.cons_append, skipWs_cons_of_not_ws _ (digitChar_spec hd).2.1]

theorem skipWs_nil : skipWs [] = [] := rfl

theorem parseJsonChars_nil : parseJsonChars [] = none := rfl

theorem parseStringBody_closed :
    ∀ (s r : List Char), (∀ c ∈ s, c ≠ '"') →
      parseStringBody (s ++ '"' :: r) = some (s, r) := by
  intro s
  induction s with
  | nil => intro r _; simp [parseStringBody]
  | cons c cs ih =>
    intro r h
    have hc : c ≠ '"' := h c (List.mem_cons_self _ _)
    simp only [List.cons_append, parseStringBody, if_neg hc, List.append_eq,
      ih r fun d hd => h d (List.mem_cons_of_mem _ hd)]
    rfl

theorem parseValue_natToChars (n : Nat) (r : List Char) :
    parseValue (natToChars n ++ '\x7d' :: r) = some (Json.num n, '\x7d' :: r) := by
  obtain ⟨c, cs, hdecomp⟩ := List.exists_cons_of_ne_nil (natToChars_ne_nil n)
  have hc : c ∈ natToChars n := by rw [hdecomp]; exact List.mem_cons_self _ _
  obtain ⟨d, hd, hcd⟩ := mem_natToChars hc
  have hq : c ≠ '"' := by rw [hcd]; exact (digitChar_spec hd).2.2
  have hpn := parseNumber_natToChars n r
  have hsw := skipWs_natToChars_append n ('\x7d' :: r)
  rw [hdecomp, List.cons_append] at hpn hsw
  simp only [parseValue, hdecomp, List.cons_append, hsw, if_neg hq, hpn]

/-- Round trip at the text level: parsing the exact bytes
`writePersistent` serializes recovers the single-member object. -/
theorem parse_stringifyPersistent (d : Persistent) :
    parseJsonChars (stringifyPersistent d)
      = some (Json.obj [(appPortKey, Json.num d.appPort)]) := by
  simp +decide only [stringifyPersistent, parseJsonChars, parseMembers,
    skipWs_cons_of_not_ws, skipWs_natToChars_append, parseStringBody_closed,
    parseValue_natToChars, skipWs_nil, if_true, if_false]

/-! ## Lemmas about the store and the stdin scripts -/

theorem readPersistent_writePersistent (project : Project) (data : Persistent) (store : Store) :
    readPersistent project (writePersistent project data store)
      = Except.ok (Json.obj [(appPortKey, Json.num data.appPort)]) := by
  unfold readPersistent writePersistent
  simp only [if_pos rfl, if_true, eq_self_iff_true, Option.getD_some, parse_stringifyPersistent]

theorem runWrites_no_fail (writeFails : Nat → Bool) (hw : ∀ i, writeFails i = false) :
    ∀ (cs : List (List Char)) (i : Nat) (p : Pipe),
      runWrites writeFails i cs p = (⟨p.chunks ++ cs, true⟩, false) := by
  intro cs
  induction cs with
  | nil => intro i p; simp [runWrites]
  | cons c cs ih =>
    intro i p
    simp only [runWrites, hw i, if_false, ih (i + 1)]
    simp

theorem stdinScript_no_fail (writeFails : Nat → Bool) (hw : ∀ i, writeFails i = false)
    (chunks : List (List Char)) :
    stdinScript writeFails chunks = (⟨chunks, true⟩, false) := by
  unfold stdinScript pipeStart
  rw [runWrites_no_fail writeFails hw chunks 0 ⟨[], false⟩]
  simp

/-! ## Lemmas about shell quoting -/

theorem prependHead_cons_head :
    ∀ (a w : List Char) (ws : List (List Char)), prependHead a (w :: ws) = (a ++ w) :: ws := by
  intro a
  induction a with
  | nil => intro w ws; rfl
  | cons c a ih =>
    intro w ws
    show consHead c (prependHead a (w :: ws)) = _
    rw [ih]
    rfl

theorem sf_quoted_squote (cs : List Char) :
    shellFields .quoted (squoteChar :: cs) = shellFields .word cs := rfl

theorem sf_out_squote (cs : List Char) :
    shellFields .out (squoteChar :: cs) = shellFields .quoted cs := by
  rw [shellFields.eq_def]; simp +decide

theorem sf_word_squote (cs : List Char) :
    shellFields .word (squoteChar :: cs) = shellFields .quoted cs := by
  rw [shellFields.eq_def]; simp +decide

theorem sf_word_bslash (d : Char) (cs : List Char) :
    shellFields .word (bslashChar :: d :: cs)
      = (shellFields .word cs).map (consHead d) := by
  rw [shellFields.eq_def]; simp +decide

theorem sf_word_space (cs : List Char) :
    shellFields .word (' ' :: cs) = (shellFields .out cs).map (fun ws => [] :: ws) := by
  rw [shellFields.eq_def]; simp

theorem sf_word_nil : shellFields .word [] = some [[]] := rfl

theorem sf_quoted_other {c : Char} (cs : List Char) (hc : c ≠ squoteChar) :
    shellFields .quoted (c :: cs) = (shellFields .quoted cs).map (consHead c) := by
  rw [shellFields.eq_def]
  simp only [if_neg hc]

theorem shellFields_quoted_escBody (a : List Char) :
    ∀ rest, shellFields .quoted (escBody a ++ rest)
      = (shellFields .quoted rest).map (prependHead a) := by
  induction a with
  | nil =>
    intro rest
    cases h : shellFields .quoted rest <;> simp [escBody, prependHead, h]
  | cons c a ih =>
    intro rest
    have hmap : ∀ (o : Option (List (List Char))),
        (o.map (prependHead a)).map (consHead c) = o.map (prependHead (c :: a)) := by
      intro o
      cases o <;> rfl
    by_cases hc : c = squoteChar
    · subst hc
      show shellFields .quoted
        (squoteChar :: bslashChar :: squoteChar :: squoteChar :: (escBody a ++ rest)) = _
      rw [sf_quoted_squote, sf_word_bslash, sf_word_squote, ih rest, hmap]
    · show shellFields .quoted
          (((if c = squoteChar then escQuoteSeq else [c]) ++ escBody a) ++ rest) = _
      rw [if_neg hc, List.append_assoc, List.singleton_append,
        sf_quoted_other _ hc, ih rest, hmap]

theorem shellFields_out_escapeArg (a : List Char) (rest : List Char) :
    shellFields .out (escapeArg a ++ rest)
      = (shellFields .word rest).map (prependHead a) := by
  show shellFields .out (squoteChar :: ((escBody a ++ [squoteChar]) ++ rest)) = _
  rw [List.append_assoc, List.singleton_append, sf_out_squote,
    shellFields_quoted_escBody, sf_quoted_squote]

/-! ## The claims -/

/-- Claim C1, counterexample: the claim states that a spawned process
exiting with a non-zero status makes `Cli.up` fail with an error.  At the
concrete input where the child closes with exit status 1 (and every write
succeeds), `Cli.up` succeeds with `Except.ok 1`: `waitForChild` resolves
on the `close` event whatever the status, and rejects only on the spawn
`error` event. -/
theorem claim1_nonzero_exit_counterexample :
    upResult emptyObjText (fun _ => false) (ChildOutcome.closed 1) = Except.ok 1
      ∧ ∀ e, upResult emptyObjText (fun _ => false) (ChildOutcome.closed 1)
          ≠ Except.error e := by
  refine ⟨rfl, ?_⟩
  intro e h
  exact Except.noConfusion h

/-- Claim C1, amended: when no standard-input write throws, `Cli.up` (and
with it every operation awaited through `waitForChild`) surfaces an error
exactly when the process could not be spawned; a child that spawns and
exits with any status — zero or not — resolves normally with that exit
code. -/
theorem claim1_spawn_failure_only (overrideText : List Char) (writeFails : Nat → Bool)
    (outcome : ChildOutcome) (hw : ∀ i, writeFails i = false) :
    ((∃ e, upResult overrideText writeFails outcome = Except.error e)
        ↔ outcome = ChildOutcome.spawnError)
      ∧ (∀ code, upResult overrideText writeFails (ChildOutcome.closed code) = Except.ok code)
      ∧ (∀ code, waitForChild (ChildOutcome.closed code) = Except.ok code) := by
  have hup : ∀ o, upResult overrideText writeFails o = waitForChild o := by
    intro o
    unfold upResult
    rw [stdinScript_no_fail writeFails hw]
    rfl
  refine ⟨?_, fun code => by rw [hup]; rfl, fun code => rfl⟩
  constructor
  · rintro ⟨e, he⟩
    rw [hup] at he
    cases outcome with
    | spawnError => rfl
    | closed code => exact Except.noConfusion he
  · rintro rfl
    exact ⟨UpError.spawnFailed, by rw [hup]; rfl⟩

/-- Claim C1, witness: the amended theorem applied at a concrete
environment where no write fails and the child fails to spawn. -/
theorem claim1_spawn_failure_only_witness :
    ((∃ e, upResult emptyObjText (fun _ => false) ChildOutcome.spawnError = Except.error e)
        ↔ ChildOutcome.spawnError = ChildOutcome.spawnError)
      ∧ (∀ code, upResult emptyObjText (fun _ => false) (ChildOutcome.closed code)
          = Except.ok code)
      ∧ (∀ code, waitForChild (ChildOutcome.closed code) = Except.ok code) :=
  claim1_spawn_failure_only emptyObjText (fun _ => false) ChildOutcome.spawnError
    (fun _ => rfl)

/-- Claim C2: after a creation workflow that allocated port `appPort` and
persisted it, every later serving workflow for the same project reads back
exactly that port, passes it as the `--port` argument of the in-container
`serve-web` invocation, and leaves the persisted state untouched. -/
theorem claim2_port_plumbing (project : Project) (rcOut configText : List Char)
    (appPort : Nat) (store : Store) (forwardPort : Option Nat) (run : SetUpRun)
    (h : setUpContainer project rcOut configText appPort store = Except.ok run) :
    runWebUi project forwardPort run.store
      = (Except.ok ⟨some appPort, serveWebCommand (natToChars appPort), forwardPort⟩,
          run.store) := by
  unfold setUpContainer at h
  cases hrc : readConfiguration project rcOut with
  | error e => cases e <;> simp [hrc] at h
  | ok cfg =>
    simp only [hrc] at h
    cases hpc : parseJsonChars (stripComments configText) with
    | none => simp [hpc] at h
    | some configJson =>
      simp only [hpc] at h
      injection h with h2
      subst h2
      show runWebUi project forwardPort (writePersistent project ⟨appPort⟩ store) = _
      unfold runWebUi
      rw [readPersistent_writePersistent]
      simp only [getAppPort, lookupMember, if_pos rfl, if_true, eq_self_iff_true]

/-- Claim C2, witness: the theorem applied to a concrete creation run
(project `c2Project`, empty-object configurations, port 50000). -/
theorem claim2_port_plumbing_witness :
    runWebUi c2Project (some 8000) c2Run.store
      = (Except.ok ⟨some 50000, serveWebCommand (natToChars 50000), some 8000⟩,
          c2Run.store) :=
  claim2_port_plumbing c2Project emptyObjText emptyObjText 50000 (fun _ => none)
    (some 8000) c2Run rfl

/-- Claim C3: for every project and state value, a `writePersistent`
followed by a `readPersistent` for the same project returns a value equal
to the written state — the serialized file parses back to the one-member
object holding exactly the written `appPort`, and the destructuring the
serving workflow performs recovers that port. -/
theorem claim3_persist_roundtrip (project : Project) (data : Persistent) (store : Store) :
    readPersistent project (writePersistent project data store)
      = Except.ok (Json.obj [(appPortKey, Json.num data.appPort)])
      ∧ (readPersistent project (writePersistent project data store)).map getAppPort
        = Except.ok (some data.appPort) := by
  refine ⟨readPersistent_writePersistent project data store, ?_⟩
  rw [readPersistent_writePersistent project data store]
  simp only [Except.map, getAppPort, lookupMember, if_pos rfl, if_true, eq_self_iff_true]

/-- Claim C4: for every draw of the random source in `[0, 1)`,
`randomAppPort` returns an integer between 49152 and 65535 inclusive. -/
theorem claim4_port_range (r : ℚ) (h0 : 0 ≤ r) (h1 : r < 1) :
    49152 ≤ randomAppPort r ∧ randomAppPort r ≤ 65535 := by
  unfold randomAppPort
  rw [round_eq]
  constructor
  · have h : (0:ℤ) ≤ ⌊(65535 - 49152 : ℚ) * r + 1/2⌋ := by
      apply Int.le_floor.mpr; push_cast; nlinarith
    omega
  · have h : ⌊(65535 - 49152 : ℚ) * r + 1/2⌋ < 16384 := by
      apply Int.floor_lt.mpr; push_cast; nlinarith
    omega

/-- Claim C4, witness: the range theorem applied at the draw 0. -/
theorem claim4_port_range_witness : 49152 ≤ randomAppPort 0 ∧ randomAppPort 0 ≤ 65535 :=
  claim4_port_range 0 le_rfl (by norm_num)

/-- Claim C5: when the `read-configuration` subprocess produces empty
standard output, `readConfiguration` fails with the deliberate
configuration-unavailable throw — not with the parse-failure error, since
the emptiness guard runs before `JSON.parse` is reached. -/
theorem claim5_empty_configuration_guard (project : Project) :
    readConfiguration project [] = Except.error CliError.configurationUnavailable := rfl

/-- Claim C6, counterexample: the claim states that for every raw
configuration text containing end-of-line comments, stripping makes the
JSON parse succeed.  `c6BadText` contains an end-of-line comment, but the
replacement fires at the first `//` of the line — inside the string
literal `"http://x"` — so the stripped text is cut mid-string and parsing
fails, aborting the creation workflow. -/
theorem claim6_comment_strip_counterexample :
    parseJsonChars (stripComments c6BadText) = none
      ∧ setUpContainer c6Project emptyObjText c6BadText 50000 (fun _ => none)
          = Except.error SetUpError.badConfigJson := ⟨rfl, rfl⟩

/-- Claim C6, amended: the creation workflow deletes, on every line,
everything from the first `//` to the end of the line before parsing; on
texts whose `//` occurrences all start comments — such as the example
from the specification — the stripped text parses, and the parsed object
flows into the override configuration handed to `Cli.up`. -/
theorem claim6_comment_strip_example :
    stripComments c6ExampleText = "\x7b\"a\": 1 \n\x7d".data
      ∧ parseJsonChars (stripComments c6ExampleText)
          = some (Json.obj [("a".data, Json.num 1)])
      ∧ (setUpContainer c6Project emptyObjText c6ExampleText 50000 (fun _ => none)).map
          SetUpRun.override
          = Except.ok (Json.obj [("a".data, Json.num 1), (appPortKey, Json.num 50000)]) :=
  ⟨rfl, rfl, rfl⟩

/-- Claim C7, counterexample: the claim states that the standard-input
stream is closed on every exit path including write-error paths.  When
the first write throws, the straight-line write-write-end sequence of
`Cli.up` is abandoned before `stdin.end()`: the pipe is left unclosed and
the exception escapes. -/
theorem claim7_stdin_close_counterexample :
    (stdinScript (fun _ => true) (upChunks emptyObjText)).1.closed = false
      ∧ (stdinScript (fun _ => true) (upChunks emptyObjText)).2 = true := ⟨rfl, rfl⟩

/-- Claim C7, amended: on the normal path — no write throws — each of the
three stdin-piping sites (`Cli.up`, `writePersistent`, the settings save
of `setUpContainer`) writes its chunks and then closes the stream, and no
exception escapes; a write error, however, skips the close. -/
theorem claim7_stdin_close_on_success (writeFails : Nat → Bool)
    (hw : ∀ i, writeFails i = false)
    (overrideText settingsText : List Char) (data : Persistent) :
    stdinScript writeFails (upChunks overrideText) = (⟨upChunks overrideText, true⟩, false)
      ∧ stdinScript writeFails (persistChunks data) = (⟨persistChunks data, true⟩, false)
      ∧ stdinScript writeFails (settingsChunks settingsText)
          = (⟨settingsChunks settingsText, true⟩, false) :=
  ⟨stdinScript_no_fail writeFails hw _, stdinScript_no_fail writeFails hw _,
    stdinScript_no_fail writeFails hw _⟩

/-- Claim C7, witness: the amended theorem applied at a concrete
no-failure environment. -/
theorem claim7_stdin_close_on_success_witness :
    stdinScript (fun _ => false) (upChunks emptyObjText)
        = (⟨upChunks emptyObjText, true⟩, false)
      ∧ stdinScript (fun _ => false) (persistChunks ⟨50000⟩)
          = (⟨persistChunks ⟨50000⟩, true⟩, false)
      ∧ stdinScript (fun _ => false) (settingsChunks emptyObjText)
          = (⟨settingsChunks emptyObjText, true⟩, false) :=
  claim7_stdin_close_on_success (fun _ => false) (fun _ => rfl) emptyObjText emptyObjText
    ⟨50000⟩

/-- Claim C8: `readPersistent` fails (with the error the specification
calls `StateNotFoundError`) exactly when the persist file is missing or
its contents do not parse as JSON, and succeeds with the parsed state
when the file exists and parses. -/
theorem claim8_read_error_iff (project : Project) (store : Store) :
    (readPersistent project store = Except.error StateError.stateNotFound
        ↔ store project = none ∨ ∃ t, store project = some t ∧ parseJsonChars t = none)
      ∧ ∀ t j, store project = some t → parseJsonChars t = some j →
          readPersistent project store = Except.ok j := by
  unfold readPersistent
  cases hs : store project with
  | none =>
    refine ⟨by simp [parseJsonChars_nil], ?_⟩
    intro t j ht
    cases ht
  | some t =>
    cases hp : parseJsonChars t with
    | none =>
      refine ⟨by simp [hp], ?_⟩
      intro t2 j ht hj
      injection ht with ht2
      subst ht2
      simp [hp] at hj
    | some j =>
      refine ⟨by simp [hp], ?_⟩
      intro t2 j2 ht hj
      injection ht with ht2
      subst ht2
      rw [hp] at hj
      injection hj with hj2
      subst hj2
      simp [hp]

/-- Claim C8, witness: the theorem applied to a store with no persist
file (read fails) and to a store holding a serialized state (read
succeeds with the parsed object). -/
theorem claim8_read_error_iff_witness :
    readPersistent c2Project c8StoreNone = Except.error StateError.stateNotFound
      ∧ readPersistent c2Project c8StoreGood
          = Except.ok (Json.obj [(appPortKey, Json.num 7)]) :=
  ⟨((claim8_read_error_iff c2Project c8StoreNone).1).mpr (Or.inl rfl),
    (claim8_read_error_iff c2Project c8StoreGood).2 (stringifyPersistent ⟨7⟩) _ rfl
      (parse_stringifyPersistent ⟨7⟩)⟩

/-- Claim C9: what the relay error handlers actually do.  With two active
pairs (sockets 0 relayed to 1, and 2 relayed to 3), an `error` event on
socket 0 runs the registered listener — the unbound
`Socket.prototype.destroy` — with `this` bound to the emitter, so socket
0 destroys itself while its counterpart socket 1 stays open; the other
pair and the listener are untouched.  The claim (and the clear intent of
`from.on("error", to.destroy)`) is that the counterpart is destroyed:
the code diverges from it. -/
theorem claim9_relay_error_behavior :
    (emitError 0 ⟨[⟨0, 1⟩, ⟨2, 3⟩], [], true⟩).destroyed = [0]
      ∧ 1 ∉ (emitError 0 ⟨[⟨0, 1⟩, ⟨2, 3⟩], [], true⟩).destroyed
      ∧ 2 ∉ (emitError 0 ⟨[⟨0, 1⟩, ⟨2, 3⟩], [], true⟩).destroyed
      ∧ 3 ∉ (emitError 0 ⟨[⟨0, 1⟩, ⟨2, 3⟩], [], true⟩).destroyed
      ∧ (emitError 0 ⟨[⟨0, 1⟩, ⟨2, 3⟩], [], true⟩).listenerUp = true
      ∧ (emitError 0 ⟨[⟨0, 1⟩, ⟨2, 3⟩], [], true⟩).pairs = [⟨0, 1⟩, ⟨2, 3⟩] := by
  refine ⟨rfl, ?_, ?_, ?_, rfl, rfl⟩ <;> decide

/-- Claim C10: for every argument list — whatever blanks, quotes or other
metacharacters the arguments contain — POSIX field splitting and quote
removal applied to the `escapeShell` output recovers exactly the original
arguments, so the intermediary-shell indirection of `Cli.up` passes its
argument vector to the external tool unchanged. -/
theorem claim10_escapeShell_roundtrip :
    ∀ args, shellFields .out (escapeShell args) = some args := by
  intro args
  induction args with
  | nil => rfl
  | cons a rest ih =>
    cases rest with
    | nil =>
      show shellFields .out (escapeArg a) = some [a]
      rw [← List.append_nil (escapeArg a), shellFields_out_escapeArg, sf_word_nil]
      simp [prependHead_cons_head]
    | cons b rest2 =>
      show shellFields .out (escapeArg a ++ ' ' :: escapeShell (b :: rest2)) = _
      rw [shellFields_out_escapeArg, sf_word_space, ih]
      simp [prependHead_cons_head]

end Myspace
